import Mathlib

/-!
# Verification of the recipekeeper-ai-api ingestion and normalization core

This file is a shallow embedding, in Lean 4, of the JavaScript source of the
`recipekeeper-ai-api` Lambda: the JSON data model the code manipulates, the
Bedrock response-envelope sniffing and recipe normalization
(`src/services/bedrock.service.mjs`), the recipe validator
(`src/models/recipe.model.mjs`), the extraction orchestrator
(`src/controllers/recipe.controller.mjs`), the HTTP response envelopes
(`src/utils/response.util.mjs`), the API-Gateway handlers and event routing
(`src/handler.mjs`), and the HTML text extraction
(`src/services/webpage.service.mjs`).

External collaborators (the Bedrock network call, the downstream Lambda
invocation, S3/Textract, `JSON.parse` of model output, clock reads) are
passed in as explicit parameters, so every function here is a pure, executable
translation of the JavaScript control flow operating on those outcomes.

Modelling conventions:
* JavaScript values flowing through the code are modelled by the inductive
  type `Json` (JSON values). `undefined` is modelled by `Option.none` at
  property-lookup sites; a missing object key and a key explicitly set to
  `undefined` are indistinguishable for every operation this code performs.
* JavaScript numbers are modelled by `Rat` (the code only compares, defaults
  and copies them; `NaN` never arises from the operations modelled here).
* Exceptions are modelled by `Except String`, carrying the JS error message.
  Property access on `null` raises a `TypeError`, as in the strict-mode
  `.mjs` sources.
* JSON objects produced by `JSON.parse` have unique keys (later duplicates
  win during parsing); the association-list operations below agree with
  JavaScript object semantics on unique-key lists.
-/

set_option autoImplicit false

namespace RecipeKeeper

/-- JSON/JavaScript values as manipulated by the Lambda sources. -/
inductive Json where
  | null : Json
  | bool (b : Bool) : Json
  | num (q : Rat) : Json
  | str (s : String) : Json
  | arr (elems : List Json) : Json
  | obj (fields : List (String × Json)) : Json

namespace Json

/-- JavaScript truthiness of a value: `null`, `false`, `0` and `""` are
falsy; every object and array is truthy. -/
def truthy : Json → Bool
  | .null => false
  | .bool b => b
  | .num q => q != 0
  | .str s => s != ""
  | .arr _ => true
  | .obj _ => true

/-- Truthiness of a possibly-`undefined` value (`none` models `undefined`). -/
def truthyOpt : Option Json → Bool
  | none => false
  | some j => j.truthy

end Json

/-- Lookup of an object field (`o[k]`): first entry with the given key.
JavaScript objects have unique keys, on which this agrees with JS lookup. -/
def jlookup : List (String × Json) → String → Option Json
  | [], _ => none
  | p :: rest, k => if p.1 = k then some p.2 else jlookup rest k

/-- Property read `v.k` on an arbitrary value: objects use field lookup,
every other non-null value yields `undefined` (`none`); reading a property
of `null` throws in JS and is guarded at each call site below. -/
def jprop : Json → String → Option Json
  | .obj fields, k => jlookup fields k
  | _, _ => none

/-- Property write `o[k] = v`: overwrite the value of an existing key in
place, otherwise append the new key (JS object insertion order). -/
def setProp : List (String × Json) → String → Json → List (String × Json)
  | [], k, v => [(k, v)]
  | p :: rest, k, v => if p.1 = k then (k, v) :: rest else p :: setProp rest k v

/-- Contiguous-substring scan on character lists. -/
def listContainsSeq (needle : List Char) : List Char → Bool
  | [] => needle.isEmpty
  | c :: rest => needle.isPrefixOf (c :: rest) || listContainsSeq needle rest

/-- JS `haystack.includes(needle)` on strings (contiguous substring test). -/
def strIncludes (haystack needle : String) : Bool :=
  listContainsSeq needle.data haystack.data

/-- The character class of JavaScript `\s` / `String.prototype.trim`
(space, tab, line feed, carriage return, vertical tab, form feed,
no-break space, BOM; other rare Unicode space separators are omitted —
none of them is produced or consumed by this code). -/
def jsSpace (c : Char) : Bool :=
  c = ' ' || c = '\t' || c = '\n' || c = '\r' ||
  c = '\x0b' || c = '\x0c' || c = ' ' || c = '﻿'

/-- JS `String.prototype.trim` on a character list. -/
def jsTrimList (l : List Char) : List Char :=
  ((l.dropWhile jsSpace).reverse.dropWhile jsSpace).reverse

/-- JS `s.trim()`. -/
def jsTrim (s : String) : String :=
  String.mk (jsTrimList s.data)

/-- JS `s.substring(0, n)` (the sources only use the `0`-based prefix form). -/
def strTake (s : String) (n : Nat) : String :=
  String.mk (s.data.take n)

/-- An ASCII upper-case letter (code points 65-90). -/
def isUpperChar (c : Char) : Bool :=
  65 ≤ c.toNat && c.toNat ≤ 90

/-- Lower-case one character as `String.prototype.toLowerCase` does on the
ASCII range (the only range exercised by recipe units). -/
def jsLowerChar (c : Char) : Char :=
  if isUpperChar c then Char.ofNat (c.toNat + 32) else c

/-- JS `s.toLowerCase()` (ASCII range). -/
def jsToLower (s : String) : String :=
  String.mk (s.data.map jsLowerChar)

/-- A string with no ASCII upper-case letter (what "lower-case" means for
the normalized ingredient units). -/
def noUpper (s : String) : Bool :=
  s.data.all (fun c => !isUpperChar c)

/-! ## `src/utils/response.util.mjs` — HTTP response envelopes -/

/-- An API-Gateway response. The `body` is kept as the JSON value that the
source passes to `JSON.stringify`; stringification is the runtime's. -/
structure HttpResp where
  statusCode : Nat
  headers : List (String × Json)
  body : Json

/-- The header block shared by `successResponse` and `errorResponse`. -/
def corsHeaders : List (String × Json) :=
  [("Content-Type", Json.str "application/json"),
   ("Access-Control-Allow-Origin", Json.str "*"),
   ("Access-Control-Allow-Credentials", Json.bool true)]

/-- Function `successResponse(data, statusCode)` from `response.util.mjs`. -/
def successResponse (data : Json) (statusCode : Nat) : HttpResp :=
  { statusCode := statusCode
    headers := corsHeaders
    body := Json.obj [("success", Json.bool true), ("data", data)] }

/-- Function `errorResponse(message, statusCode, details)` from `response.util.mjs`
(callers that omit `details` pass the default `[]`). -/
def errorResponse (message : String) (statusCode : Nat) (details : List Json) :
    HttpResp :=
  { statusCode := statusCode
    headers := corsHeaders
    body := Json.obj
      [("success", Json.bool false),
       ("error", Json.obj
         [("message", Json.str message), ("details", Json.arr details)])] }

/-! ## `src/services/bedrock.service.mjs` — Text-Extraction Backend Adapter

`extractRecipe` builds the model request, sends it, then processes the
decoded response body.  The request construction and the network call are
external; the functions below model everything from the decoded
`responseBody` on: envelope sniffing (Nova-style `output.message.content`
versus Claude-style top-level `content`), extraction of the first textual
content item, `JSON.parse` of that text (the parser is the JS runtime's and
is passed in as a parameter), and the default/normalization pass.  The
`catch` block of the source maps a `SyntaxError` (only `JSON.parse` throws
one) to the format-error message; that relabelling is inlined at the parse
site. -/

/-- Message of the strict-mode `TypeError` raised by a property read on
`null`. -/
def typeErrorNull : String := "TypeError: Cannot read properties of null"

/-- Message of the `TypeError` raised by `(x).toLowerCase()` when `x` is
not a string. -/
def typeErrorLower : String := "TypeError: toLowerCase is not a function"

/-- Message of the strict-mode `TypeError` raised by a property write on a
primitive value. -/
def typeErrorCreate : String :=
  "TypeError: Cannot create property on a primitive value"

/-- JS `Array.prototype.find`, with a predicate that may throw (the source's
predicates read properties of the element, which throws on a `null`
element). -/
def jsFindM (p : Json → Except String Bool) : List Json → Except String (Option Json)
  | [] => .ok none
  | x :: rest =>
    match p x with
    | .error e => .error e
    | .ok true => .ok (some x)
    | .ok false => jsFindM p rest

/-- Predicate of the Nova-shape search: `item => item.text` (truthiness). -/
def novaItemPred (item : Json) : Except String Bool :=
  match item with
  | Json.null => .error typeErrorNull
  | j => .ok (Json.truthyOpt (jprop j "text"))

/-- Predicate of the Claude-shape search: `item => item.type === 'text'`. -/
def claudeItemPred (item : Json) : Except String Bool :=
  match item with
  | Json.null => .error typeErrorNull
  | j => .ok (match jprop j "type" with
      | some (Json.str s) => s == "text"
      | _ => false)

/-- The envelope sniffing of `extractRecipe` (lines 86-98): returns the
`textContent` item (`none` models it staying `undefined`). -/
def bedrockExtractContent (responseBody : Json) : Except String (Option Json) :=
  match responseBody with
  | Json.null => .error typeErrorNull
  | _ =>
    if Json.truthyOpt (jprop responseBody "output") &&
       Json.truthyOpt ((jprop responseBody "output").bind (fun o => jprop o "message")) then
      -- Nova/Messages format: message.content must be a non-empty array
      match (jprop responseBody "output").bind (fun o => jprop o "message") with
      | some msg =>
        match jprop msg "content" with
        | some (Json.arr items) =>
          if items.length > 0 then jsFindM novaItemPred items else .ok none
        | _ => .ok none
      | none => .ok none
    else
      -- Claude/Anthropic format: responseBody.content must be an array
      match jprop responseBody "content" with
      | some (Json.arr items) => jsFindM claudeItemPred items
      | _ => .ok none

/-- Error message for the protocol failure (no textual content item). -/
def bedrockProtocolErrorMsg : String := "No text content found in Bedrock response"

/-- Error message the `catch` block substitutes for the `SyntaxError` of
`JSON.parse` (format failure). -/
def bedrockFormatErrorMsg : String := "Failed to parse recipe JSON from Bedrock response"

/-- One ingredient of the normalization `map` (lines 115-119):
`{name: i.name, quantity: i.quantity || 1, unit: (i.unit || '').toLowerCase()}`.
A `null` element throws on the first property read; a truthy non-string
`unit` throws on `.toLowerCase()`.  A key whose value would be `undefined`
is omitted (indistinguishable for all downstream operations).
The sub-expression `(i.unit || '').toLowerCase()` is `normUnit`. -/
def normUnit : Option Json → Except String String
  | some u =>
    if u.truthy then
      match u with
      | Json.str s => .ok (jsToLower s)
      | _ => .error typeErrorLower
    else .ok ""
  | none => .ok ""

/-- The sub-expression `i.quantity || 1`. -/
def normQuantity : Option Json → Json
  | some q => if q.truthy then q else Json.num 1
  | none => Json.num 1

/-- One ingredient of the normalization `map` (see the comments on
`normUnit` and `normQuantity` above for the sub-expression split). -/
def normIngredient (j : Json) : Except String Json :=
  match j with
  | Json.null => .error typeErrorNull
  | _ =>
    match normUnit (jprop j "unit") with
    | .error e => .error e
    | .ok unitStr =>
      .ok (Json.obj ((match jprop j "name" with
        | some nv => [("name", nv)]
        | none => []) ++
        [("quantity", normQuantity (jprop j "quantity")),
         ("unit", Json.str unitStr)]))

/-- One step of the normalization `map` (lines 124-127) is
`{order: step.order || index + 1, text: step.text}` at 0-based `idx`;
`normOrder` is the `order` sub-expression. -/
def normOrder (idx : Nat) : Option Json → Json
  | some v => if v.truthy then v else Json.num ((idx : Rat) + 1)
  | none => Json.num ((idx : Rat) + 1)

/-- One step of the normalization `map`, with `normOrder` the sub-expression
`step.order || index + 1`. -/
def normStep (idx : Nat) (j : Json) : Except String Json :=
  match j with
  | Json.null => .error typeErrorNull
  | _ =>
    .ok (Json.obj ([("order", normOrder idx (jprop j "order"))] ++
      (match jprop j "text" with
      | some tv => [("text", tv)]
      | none => [])))

/-- The loop `steps.map((step, index) => ...)` carrying the running index. -/
def normSteps (idx : Nat) : List Json → Except String (List Json)
  | [] => .ok []
  | s :: rest =>
    match normStep idx s with
    | .error e => .error e
    | .ok y =>
      match normSteps (idx + 1) rest with
      | .error e => .error e
      | .ok ys => .ok (y :: ys)

/-- The loop `ingredients.map(...)` (an exception aborts the whole map). -/
def normIngredients : List Json → Except String (List Json)
  | [] => .ok []
  | x :: rest =>
    match normIngredient x with
    | .error e => .error e
    | .ok y =>
      match normIngredients rest with
      | .error e => .error e
      | .ok ys => .ok (y :: ys)

/-- The default/normalization pass of `extractRecipe` (lines 108-133) on an
object payload: default `servings` to 4 when falsy, rewrite the
`ingredients` and `steps` arrays element-wise, default `tags` to `[]` when
falsy.  The sequential property writes of the source become a sequential
field-list update, split here into three stages in source order
(`bedrockNormalize` → `bedrockNormalizeSteps` → `bedrockNormalizeTags`);
this is stage three. -/
def bedrockNormalizeTags (fs3 : List (String × Json)) : List (String × Json) :=
  if Json.truthyOpt (jlookup fs3 "tags") then fs3
  else setProp fs3 "tags" (Json.arr [])

/-- Stage two of `bedrockNormalize`: the `steps` rewrite (lines 123-128)
followed by the `tags` default (`bedrockNormalizeTags`). -/
def bedrockNormalizeSteps (fs2 : List (String × Json)) :
    Except String (List (String × Json)) :=
  match jlookup fs2 "steps" with
  | some (Json.arr xs) =>
    match normSteps 0 xs with
    | .error e => .error e
    | .ok ys => .ok (bedrockNormalizeTags (setProp fs2 "steps" (Json.arr ys)))
  | _ => .ok (bedrockNormalizeTags fs2)

/-- Stage one-b: the `ingredients` rewrite (lines 114-120), then the
remaining stages. -/
def bedrockNormalizeIngredients (fs1 : List (String × Json)) :
    Except String (List (String × Json)) :=
  match jlookup fs1 "ingredients" with
  | some (Json.arr xs) =>
    match normIngredients xs with
    | .error e => .error e
    | .ok ys => bedrockNormalizeSteps (setProp fs1 "ingredients" (Json.arr ys))
  | _ => bedrockNormalizeSteps fs1

/-- Stage one of the default/normalization pass: the `servings` default
(lines 109-111), then the remaining stages. -/
def bedrockNormalize (fs : List (String × Json)) :
    Except String (List (String × Json)) :=
  bedrockNormalizeIngredients
    (if Json.truthyOpt (jlookup fs "servings") then fs
     else setProp fs "servings" (Json.num 4))

/-- The normalization applied to whatever `JSON.parse` produced.  `null`
throws on the first property read; primitives throw on the first strict-mode
property write (`servings` is always written for them, since their property
reads give `undefined`).  An array payload acquires expando properties
(`servings`, `tags`) that a plain JSON value cannot carry; they are invisible
to `JSON.stringify` and no theorem below ranges over array payloads, so the
array is kept unchanged. -/
def bedrockNormalizeValue (parsed : Json) : Except String Json :=
  match parsed with
  | Json.obj fs =>
    match bedrockNormalize fs with
    | .error e => .error e
    | .ok fs' => .ok (Json.obj fs')
  | Json.null => .error typeErrorNull
  | Json.arr xs => .ok (Json.arr xs)
  | _ => .error typeErrorCreate

/-- Response processing of `extractRecipe` from the decoded `responseBody`
on (lines 86-150).  `parse` models `JSON.parse` applied (after JS string
coercion) to the text value — the backend's payloads are strings, for which
this is exactly `JSON.parse`; a parse failure is the `SyntaxError` the
`catch` relabels to `bedrockFormatErrorMsg`. -/
def bedrockExtractRecipe (parse : Json → Except Unit Json)
    (responseBody : Json) : Except String Json :=
  match bedrockExtractContent responseBody with
  | .error e => .error e
  | .ok none => .error bedrockProtocolErrorMsg
  | .ok (some tc) =>
    match jprop tc "text" with
    | none => .error bedrockProtocolErrorMsg
    | some tv =>
      if tv.truthy = false then .error bedrockProtocolErrorMsg
      else match parse tv with
        | .error _ => .error bedrockFormatErrorMsg
        | .ok parsed => bedrockNormalizeValue parsed

/-! ## `src/models/recipe.model.mjs` — Recipe Validator -/

/-- Check `!x || typeof x !== 'string'` fails exactly on a non-empty string. -/
def okStringProp : Option Json → Bool
  | some (Json.str s) => s != ""
  | _ => false

/-- Check `typeof x === 'number'`. -/
def isNumberProp : Option Json → Bool
  | some (Json.num _) => true
  | _ => false

/-- Check `!x || typeof x !== 'number'` fails exactly on a non-zero number. -/
def okNumberTruthyProp : Option Json → Bool
  | some (Json.num q) => q != 0
  | _ => false

/-- Check `Array.isArray(x)`. -/
def isArrayProp : Option Json → Bool
  | some (Json.arr _) => true
  | _ => false

/-- Per-element ingredient checks of `validateRecipe` (three independent
pushes); a `null` element throws on the first property read. -/
def validateIngredient (idx : Nat) (ing : Json) : Except String (List String) :=
  match ing with
  | Json.null => .error typeErrorNull
  | j =>
    .ok ((if okStringProp (jprop j "name") then []
           else ["Ingredient " ++ toString idx ++ ": name is required and must be a string"]) ++
          (if isNumberProp (jprop j "quantity") then []
           else ["Ingredient " ++ toString idx ++ ": quantity must be a number"]) ++
          (if okStringProp (jprop j "unit") then []
           else ["Ingredient " ++ toString idx ++ ": unit is required and must be a string"]))

/-- Per-element step checks of `validateRecipe` (two independent pushes). -/
def validateStep (idx : Nat) (st : Json) : Except String (List String) :=
  match st with
  | Json.null => .error typeErrorNull
  | j =>
    .ok ((if isNumberProp (jprop j "order") then []
           else ["Step " ++ toString idx ++ ": order must be a number"]) ++
          (if okStringProp (jprop j "text") then []
           else ["Step " ++ toString idx ++ ": text is required and must be a string"]))

/-- A `forEach` with index, accumulating pushed error messages in order. -/
def validateEach (f : Nat → Json → Except String (List String)) :
    Nat → List Json → Except String (List String)
  | _, [] => .ok []
  | idx, x :: rest =>
    match f idx x with
    | .error e => .error e
    | .ok errs =>
      match validateEach f (idx + 1) rest with
      | .error e => .error e
      | .ok rests => .ok (errs ++ rests)

/-- The `ingredients` rule: one error for a non-array, else the
per-element loop. -/
def validateIngredientsField (r : Json) : Except String (List String) :=
  match jprop r "ingredients" with
  | some (Json.arr xs) => validateEach validateIngredient 0 xs
  | _ => .ok ["Ingredients must be an array"]

/-- The `steps` rule: one error for a non-array, else the per-element loop. -/
def validateStepsField (r : Json) : Except String (List String) :=
  match jprop r "steps" with
  | some (Json.arr xs) => validateEach validateStep 0 xs
  | _ => .ok ["Steps must be an array"]

/-- The accumulated error list, in push order: `title`, `servings`, the
`ingredients` errors, the `steps` errors, `tags`. -/
def validateErrors (r : Json) (e3 e4 : List String) : List String :=
  (if okStringProp (jprop r "title") then []
   else ["Title is required and must be a string"]) ++
  (if okNumberTruthyProp (jprop r "servings") then []
   else ["Servings is required and must be a number"]) ++
  e3 ++ e4 ++
  (if isArrayProp (jprop r "tags") then []
   else ["Tags must be an array"])

/-- Function `validateRecipe(recipe)` from `recipe.model.mjs`: a falsy
candidate (`undefined` is `none`) yields the single-error result; otherwise
all rules are checked in order and their error messages accumulated
(`validateErrors`).  `valid` is `errors.length === 0`.  A `TypeError`
thrown by a `null` element inside `forEach` aborts the whole call. -/
def validateRecipe (recipe : Option Json) : Except String (Bool × List String) :=
  match recipe with
  | none => .ok (false, ["Recipe object is required"])
  | some r =>
    if r.truthy = false then .ok (false, ["Recipe object is required"])
    else
      match validateIngredientsField r with
      | .error e => .error e
      | .ok e3 =>
        match validateStepsField r with
        | .error e => .error e
        | .ok e4 =>
          .ok ((validateErrors r e3 e4).isEmpty, validateErrors r e3 e4)

/-! ## `src/controllers/recipe.controller.mjs` — Extraction Orchestrator

`extractRecipeFromText` drives backend extraction → validation → downstream
submission.  The two outbound calls are passed in as outcomes
(`bedrockRes` for `bedrockService.extractRecipe(recipeText)`, `sendRes` for
`lambdaService.sendRecipeToAPI(extractedRecipe)`), the configuration read
as `modelId`, and the clock as `now`. -/

/-- The error enrichment of the orchestrator's `catch` (lines 63-76). -/
def controllerEnrich (msg : String) : String :=
  if strIncludes msg "Bedrock" then "Bedrock service error: " ++ msg
  else if strIncludes msg "parse" then
    "Failed to parse recipe from AI response. The text might not be a valid recipe."
  else msg

/-- The object returned by `extractRecipeFromText`:
`{recipe, apiResponse, metadata: {extractedAt, modelUsed}}`. -/
structure ExtractionResultM where
  recipe : Json
  apiResponse : Json
  extractedAt : String
  modelUsed : String

/-- The same result as a JSON field list (as it is spread/serialized by the
handlers). -/
def resultFields (r : ExtractionResultM) : List (String × Json) :=
  [("recipe", r.recipe),
   ("apiResponse", r.apiResponse),
   ("metadata", Json.obj [("extractedAt", Json.str r.extractedAt),
                          ("modelUsed", Json.str r.modelUsed)])]

/-- The `try` body of `extractRecipeFromText` (recipe.controller.mjs lines
21-62): backend extraction, validation, then downstream submission; a
downstream-submission failure is caught by the inner `catch` and recorded
as `{error: message, sent: false}` without aborting. -/
def orchestratorCore (modelId : String) (bedrockRes : Except String Json)
    (sendRes : Except String Json) (now : String) :
    Except String ExtractionResultM :=
  match bedrockRes with
  | .error e => .error e
  | .ok extractedRecipe =>
    match validateRecipe (some extractedRecipe) with
    | .error e => .error e
    | .ok validation =>
      if validation.1 = false then
        .error ("Invalid recipe format: " ++ String.intercalate ", " validation.2)
      else
        .ok { recipe := extractedRecipe,
              apiResponse := match sendRes with
                | .ok resp => resp
                | .error m =>
                  Json.obj [("error", Json.str m), ("sent", Json.bool false)],
              extractedAt := now, modelUsed := modelId }

/-- The input check of `extractRecipeFromText` precedes the `try`, so it is
not enriched; everything inside the `try` is `orchestratorCore`, whose
error is enriched by the `catch`. -/
def extractRecipeFromText (modelId recipeText : String)
    (bedrockRes : Except String Json) (sendRes : Except String Json)
    (now : String) : Except String ExtractionResultM :=
  if jsTrim recipeText = "" then
    .error "Recipe text is required and cannot be empty"
  else
    match orchestratorCore modelId bedrockRes sendRes now with
    | .ok r => .ok r
    | .error e => .error (controllerEnrich e)

/-- The object returned by the controller's `healthCheck`. -/
structure HealthResult where
  status : String
  bedrock : Option String
  recipeKeeperAPI : Option String
  error : Option String
  timestamp : String

/-- Function `healthCheck` (recipe.controller.mjs lines 83-105).  `probe` is the
outcome of awaiting the two availability checks
(`checkBedrockAvailability`, `checkAPIAvailability`); the `catch` produces
the `unhealthy` result. -/
def healthCheck (probe : Except String (Bool × Bool)) (now : String) :
    HealthResult :=
  match probe with
  | .ok (bedrockAvailable, apiAvailable) =>
    { status := if bedrockAvailable && apiAvailable then "healthy" else "degraded"
      bedrock := some (if bedrockAvailable then "available" else "unavailable")
      recipeKeeperAPI := some (if apiAvailable then "available" else "unavailable")
      error := none
      timestamp := now }
  | .error e =>
    { status := "unhealthy", bedrock := none, recipeKeeperAPI := none,
      error := some e, timestamp := now }

/-! ## `src/handler.mjs` — Event Router and direct-request path -/

/-- The `catch` of `handleApiGatewayEvent` (lines 246-264): error-message
based mapping to the externally visible response. -/
def apiGatewayCatch (msg : String) : HttpResp :=
  if strIncludes msg "Bedrock" then
    errorResponse "AI service temporarily unavailable" 503 [Json.str msg]
  else if strIncludes msg "parse" || strIncludes msg "Invalid recipe" then
    errorResponse "Could not extract valid recipe from text" 422 [Json.str msg]
  else if strIncludes msg "required" then
    errorResponse msg 400 []
  else
    errorResponse "Internal server error" 500 [Json.str msg]

/-- Function `handleTextExtraction` (lines 318-330): length guard then orchestrator;
`run` is `recipeController.extractRecipeFromText`, whose exception (if any)
propagates to the caller's `catch`. -/
def handleTextExtraction (recipeText : String)
    (run : String → Except String ExtractionResultM) : Except String HttpResp :=
  if recipeText.length > 50000 then
    .ok (errorResponse "Recipe text too long (max 50000 characters)" 400 [])
  else
    match run recipeText with
    | .error e => .error e
    | .ok result => .ok (successResponse (Json.obj (resultFields result)) 200)

/-- The object returned by `fetchAndExtractWebpage`. -/
structure WebContent where
  url : String
  html : String
  text : String
  contentLength : Nat

/-- The `try` body of `handleUrlExtraction` (lines 278-302): fetch,
blank-text guard, truncation to 50000 characters, orchestrator, success
envelope with `sourceUrl` and `extractedTextLength` appended. -/
def urlAttempt (url : String) (fetched : Except String WebContent)
    (run : String → Except String ExtractionResultM) : Except String HttpResp :=
  match fetched with
  | .error e => .error e
  | .ok webContent =>
    if jsTrim webContent.text = "" then
      .ok (errorResponse "No text content found at URL" 422 [])
    else
      match run (if webContent.text.length > 50000 then
          strTake webContent.text 50000
        else webContent.text) with
      | .error e => .error e
      | .ok result =>
        .ok (successResponse (Json.obj (resultFields result ++
          [("sourceUrl", Json.str url),
           ("extractedTextLength", Json.num (webContent.text.length : Rat))])) 200)

/-- The URL handler proper: URL-validity guard, then `urlAttempt` under the
`catch` that maps fetch/timeout messages to 502 and rethrows the rest. -/
def handleUrlExtraction (url : String) (valid : Bool)
    (fetched : Except String WebContent)
    (run : String → Except String ExtractionResultM) : Except String HttpResp :=
  if valid = false then .ok (errorResponse "Invalid URL format" 400 [])
  else
    match urlAttempt url fetched run with
    | .ok resp => .ok resp
    | .error e =>
      if strIncludes e "fetch" || strIncludes e "timeout" then
        .ok (errorResponse "Failed to fetch webpage" 502 [Json.str e])
      else .error e

/-- The three dispatch targets of the top-level `handler`. -/
inductive Route where
  | sqs : Route
  | s3 : Route
  | api : Route
  deriving DecidableEq

/-- Probe `event.Records[0]?.eventSource`: the first record's `eventSource`
(each record is represented by that field; `none` models a record without
it, or a `null` record under optional chaining). -/
def firstEventSource (rs : List (Option String)) : Option String :=
  rs.head?.bind id

/-- Event classification of `handler` (handler.mjs lines 36-46).
`records` is `event.Records` (`none` when absent or falsy; an empty array
is truthy in JS and falls through to the API path via the
`[0]?.eventSource` probe). -/
def routeEvent (records : Option (List (Option String))) : Route :=
  match records with
  | none => Route.api
  | some rs =>
    if firstEventSource rs = some "aws:sqs" then Route.sqs
    else if firstEventSource rs = some "aws:s3" then Route.s3
    else Route.api

/-! ## `src/services/webpage.service.mjs` — HTML text extraction

`extractTextFromHtml` is a pipeline of global regex replacements.  Each
replacement is modelled operationally as a left-to-right scan: at each
position, `step` either matches (returning the replacement text and the
remainder after the match — replacement text is never rescanned, as with
`String.prototype.replace`) or the character is copied.  A fuel argument
(the input length) makes the scan structurally recursive; every step
consumes at least one character, so the fuel never runs out. -/

/-- One global-replace scan with `fuel` at least the input length. -/
def scanReplaceAux (step : List Char → Option (List Char × List Char)) :
    Nat → List Char → List Char
  | 0, l => l
  | _ + 1, [] => []
  | n + 1, c :: rest =>
    match step (c :: rest) with
    | some (out, rest') => out ++ scanReplaceAux step n rest'
    | none => c :: scanReplaceAux step n rest

/-- One `text.replace(pattern, repl)` with the `g` flag. -/
def scanReplace (step : List Char → Option (List Char × List Char))
    (l : List Char) : List Char :=
  scanReplaceAux step l.length l

/-- Case-insensitive prefix match (`i` flag) against a lowercase pattern,
returning the remainder. -/
def dropPrefixCI : List Char → List Char → Option (List Char)
  | [], l => some l
  | _, [] => none
  | p :: ps, c :: cs => if jsLowerChar c = p then dropPrefixCI ps cs else none

/-- Exact prefix match, returning the remainder. -/
def dropPrefixExact : List Char → List Char → Option (List Char)
  | [], l => some l
  | _, [] => none
  | p :: ps, c :: cs => if c = p then dropPrefixExact ps cs else none

/-- Pattern `[^>]*>`: consume up to and including the first `'>'`; `none` if there
is no `'>'` (the surrounding match then fails). -/
def skipToGt : List Char → Option (List Char)
  | [] => none
  | '>' :: rest => some rest
  | _ :: rest => skipToGt rest

/-- Pattern `[\s\S]*?pat` (lazy): consume through the first case-insensitive
occurrence of `pat`. -/
def findCI (pat : List Char) : List Char → Option (List Char)
  | [] => none
  | c :: rest =>
    match dropPrefixCI pat (c :: rest) with
    | some r => some r
    | none => findCI pat rest

/-- Pattern `[\s\S]*?pat` (lazy), exact version (for HTML comments). -/
def findExact (pat : List Char) : List Char → Option (List Char)
  | [] => none
  | c :: rest =>
    match dropPrefixExact pat (c :: rest) with
    | some r => some r
    | none => findExact pat rest

/-- Pattern `<tag[^>]*>[\s\S]*?<\/tag>` (flags `gi`), replaced by the empty string
(used for `script`, `style`, `noscript`). -/
def stepBlock (tag : List Char) (l : List Char) : Option (List Char × List Char) :=
  match l with
  | '<' :: rest =>
    match dropPrefixCI tag rest with
    | some r1 =>
      match skipToGt r1 with
      | some r2 => (findCI ('<' :: '/' :: (tag ++ ['>'])) r2).map (fun r3 => ([], r3))
      | none => none
    | none => none
  | _ => none

/-- Pattern `<!--[\s\S]*?-->` (flag `g`), replaced by the empty string. -/
def stepComment (l : List Char) : Option (List Char × List Char) :=
  match l with
  | '<' :: '!' :: '-' :: '-' :: rest =>
    (findExact ['-', '-', '>'] rest).map (fun r => ([], r))
  | _ => none

/-- The alternation `(div|p|br|li|tr|h[1-6])` of the closing-tag rule. -/
def closeTagNames : List (List Char) :=
  ["div".data, "p".data, "br".data, "li".data, "tr".data,
   "h1".data, "h2".data, "h3".data, "h4".data, "h5".data, "h6".data]

/-- Try each alternative tag name in order, each followed by `[^>]*>`. -/
def firstTagMatch (rest : List Char) : List (List Char) → Option (List Char)
  | [] => none
  | t :: ts =>
    match dropPrefixCI t rest with
    | some r1 =>
      match skipToGt r1 with
      | some r2 => some r2
      | none => firstTagMatch rest ts
    | none => firstTagMatch rest ts

/-- Pattern `<\/(div|p|br|li|tr|h[1-6])[^>]*>` (flags `gi`), replaced by `"\n"`. -/
def stepCloseBlock (l : List Char) : Option (List Char × List Char) :=
  match l with
  | '<' :: '/' :: rest =>
    (firstTagMatch rest closeTagNames).map (fun r => (['\n'], r))
  | _ => none

/-- Pattern `<(br|hr)[^>]*>` (flags `gi`), replaced by `"\n"`. -/
def stepBrHr (l : List Char) : Option (List Char × List Char) :=
  match l with
  | '<' :: rest =>
    (firstTagMatch rest ["br".data, "hr".data]).map (fun r => (['\n'], r))
  | _ => none

/-- Pattern `<[^>]+>` (flag `g`), replaced by `" "`. -/
def stepAnyTag (l : List Char) : Option (List Char × List Char) :=
  match l with
  | '<' :: c :: rest =>
    if c = '>' then none else (skipToGt (c :: rest)).map (fun r => ([' '], r))
  | _ => none

/-- A literal entity replacement such as `/&nbsp;/g`. -/
def stepEntity (pat rep : List Char) (l : List Char) :
    Option (List Char × List Char) :=
  (dropPrefixExact pat l).map (fun r => (rep, r))

/-- Greedy `\s*` followed by a backtracked final `'\n'`: the remainder after
the last `'\n'` of the whitespace run, or `none` if the run has no `'\n'`. -/
def lastNlSplit : List Char → Option (List Char) → Option (List Char)
  | [], acc => acc
  | c :: rest, acc =>
    if jsSpace c then lastNlSplit rest (if c = '\n' then some rest else acc)
    else acc

/-- Pattern `\n\s*\n` (flag `g`, greedy), replaced by `"\n\n"`. -/
def stepBlankLines (l : List Char) : Option (List Char × List Char) :=
  match l with
  | '\n' :: rest => (lastNlSplit rest none).map (fun r => (['\n', '\n'], r))
  | _ => none

/-- The class `[ \t]`. -/
def spaceTab (c : Char) : Bool := c = ' ' || c = '\t'

/-- Pattern `[ \t]+` (flag `g`, greedy), replaced by `" "`. -/
def stepSpaces (l : List Char) : Option (List Char × List Char) :=
  match l with
  | c :: rest =>
    if spaceTab c then some ([' '], rest.dropWhile spaceTab) else none
  | [] => none

/-- Function `extractTextFromHtml` (webpage.service.mjs lines 79-112) on character
lists: the eleven replacement stages in source order, then `trim()`. -/
def extractTextList (html : List Char) : List Char :=
  let t1 := scanReplace (stepBlock "script".data) html
  let t2 := scanReplace (stepBlock "style".data) t1
  let t3 := scanReplace (stepBlock "noscript".data) t2
  let t4 := scanReplace stepComment t3
  let t5 := scanReplace stepCloseBlock t4
  let t6 := scanReplace stepBrHr t5
  let t7 := scanReplace stepAnyTag t6
  let e1 := scanReplace (stepEntity "&nbsp;".data [' ']) t7
  let e2 := scanReplace (stepEntity "&amp;".data ['&']) e1
  let e3 := scanReplace (stepEntity "&lt;".data ['<']) e2
  let e4 := scanReplace (stepEntity "&gt;".data ['>']) e3
  let e5 := scanReplace (stepEntity "&quot;".data ['"']) e4
  let e6 := scanReplace (stepEntity "&#39;".data [Char.ofNat 39]) e5
  let e7 := scanReplace (stepEntity "&euro;".data ['€']) e6
  let w1 := scanReplace stepBlankLines e7
  let w2 := scanReplace stepSpaces w1
  jsTrimList w2

/-- Function `extractTextFromHtml(html)`. -/
def extractTextFromHtml (html : String) : String :=
  String.mk (extractTextList html.data)

/-- Function `fetchAndExtractWebpage` (webpage.service.mjs lines 119-139):
fetch the page, then extract its text; the returned object carries the
extracted text and its length, and a fetch failure is rethrown
unchanged.  `fetched` is the outcome of the network call
(`fetchWebpage`). -/
def fetchAndExtractWebpage (url : String) (fetched : Except String String) :
    Except String WebContent :=
  match fetched with
  | .error e => .error e
  | .ok html =>
    .ok { url := url, html := html, text := extractTextFromHtml html,
          contentLength := (extractTextFromHtml html).length }

/-! ## Plain-text predicates (for the idempotence analysis) -/

/-- No two adjacent spaces anywhere in the list. -/
def noDoubleSpace : List Char → Bool
  | [] => true
  | [_] => true
  | c :: d :: rest => !(c = ' ' && d = ' ') && noDoubleSpace (d :: rest)

/-- The first character (if any) is not JS whitespace. -/
def headNotSpace : List Char → Bool
  | [] => true
  | c :: _ => !jsSpace c

/-- Characters on which no replacement stage of `extractTextList` can fire
again: no markup (`<`), no entity (`&`), no newline, no tab, no double
space, and no leading or trailing whitespace.  The outputs of
`extractTextFromHtml` on ordinary HTML satisfy this; outputs containing
decoded entities or stray markup need not. -/
def plainText (l : List Char) : Bool :=
  l.all (fun c => c ≠ '<' && c ≠ '&' && c ≠ '\n' && c ≠ '\t') &&
  noDoubleSpace l && headNotSpace l && headNotSpace l.reverse

/-! ## Concrete instances used by the claim theorems -/

/-- A well-formed recipe value (passes `validateRecipe`). -/
def sampleRecipe : Json := Json.obj
  [("title", Json.str "Carbonara"), ("servings", Json.num 2),
   ("ingredients", Json.arr [Json.obj
     [("name", Json.str "pasta"), ("quantity", Json.num 200),
      ("unit", Json.str "g")]]),
   ("steps", Json.arr [Json.obj
     [("order", Json.num 1), ("text", Json.str "cook")]]),
   ("tags", Json.arr [Json.str "pasta"])]

/-- An arbitrary orchestrator result, for instantiating handler runs. -/
def sampleResult : ExtractionResultM :=
  { recipe := Json.null, apiResponse := Json.null,
    extractedAt := "t", modelUsed := "m" }

/-- A Claude-shape envelope whose first typed item carries text. -/
def claudeTextEnvelope : Json := Json.obj
  [("content", Json.arr [Json.obj
    [("type", Json.str "text"), ("text", Json.str "not a recipe")]])]

/-- A parser outcome modelling a `JSON.parse` that throws `SyntaxError`. -/
def failParse : Json → Except Unit Json := fun _ => .error ()

/-- A backend recipe whose `servings` is the (truthy) number `-2`. -/
def negServingsRecipe : Json := Json.obj
  [("title", Json.str "T"), ("servings", Json.num (-2)),
   ("ingredients", Json.arr []), ("steps", Json.arr []),
   ("tags", Json.arr [])]

/-- A parser outcome producing `negServingsRecipe`. -/
def parseToNegServings : Json → Except Unit Json :=
  fun _ => .ok negServingsRecipe

/-- Fields with `servings` omitted (for the defaulting witness). -/
def sampleShapeFields : List (String × Json) := [("title", Json.str "T")]

/-- The normalization of `sampleShapeFields`. -/
def sampleShapeOut : List (String × Json) :=
  [("title", Json.str "T"), ("servings", Json.num 4), ("tags", Json.arr [])]

/-- A 50001-character non-blank text. -/
def longLetterText : String := String.mk (List.replicate 50001 'a')

/-! ## Helper lemmas -/

theorem jlookup_setProp_self (fs : List (String × Json)) (k : String) (v : Json) :
    jlookup (setProp fs k v) k = some v := by
  induction fs with
  | nil => simp [setProp, jlookup]
  | cons p rest ih =>
    by_cases h : p.1 = k
    · simp [setProp, h, jlookup]
    · simp [setProp, h, jlookup, ih]

theorem jlookup_setProp_ne (fs : List (String × Json)) (k : String) (v : Json)
    (k' : String) (h : k' ≠ k) :
    jlookup (setProp fs k v) k' = jlookup fs k' := by
  induction fs with
  | nil => simp [setProp, jlookup, Ne.symm h]
  | cons p rest ih =>
    by_cases hp : p.1 = k
    · simp [setProp, hp, jlookup, Ne.symm h]
    · simp [setProp, hp, jlookup, ih]

theorem isUpper_jsLowerChar (c : Char) : isUpperChar (jsLowerChar c) = false := by
  unfold jsLowerChar
  split
  · next h =>
    unfold isUpperChar at h ⊢
    have hb : 65 ≤ c.toNat ∧ c.toNat ≤ 90 := by
      simpa [Bool.and_eq_true, decide_eq_true_eq] using h
    have hv : (c.toNat + 32).isValidChar := Or.inl (by omega)
    have ht : (Char.ofNat (c.toNat + 32)).toNat = c.toNat + 32 := by
      rw [Char.ofNat, dif_pos hv]
      rfl
    simp only [ht, Bool.and_eq_false_iff, decide_eq_false_iff_not]
    right
    omega
  · next h => simpa using h

theorem noUpper_jsToLower (s : String) : noUpper (jsToLower s) = true := by
  unfold noUpper jsToLower
  simp only [List.all_eq_true, List.mem_map]
  rintro b ⟨c, -, rfl⟩
  simp [isUpper_jsLowerChar]

theorem bedrockNormalizeTags_lookup_ne (fs : List (String × Json)) (k : String)
    (h : k ≠ "tags") : jlookup (bedrockNormalizeTags fs) k = jlookup fs k := by
  unfold bedrockNormalizeTags
  split
  · rfl
  · exact jlookup_setProp_ne fs "tags" (Json.arr []) k h

theorem bedrockNormalizeTags_lookup_tags (fs : List (String × Json)) :
    jlookup (bedrockNormalizeTags fs) "tags" =
      if Json.truthyOpt (jlookup fs "tags") then jlookup fs "tags"
      else some (Json.arr []) := by
  unfold bedrockNormalizeTags
  split
  · next h => simp [h]
  · next h => simp [h, jlookup_setProp_self]

theorem bedrockNormalizeSteps_ok (fs2 out : List (String × Json))
    (h : bedrockNormalizeSteps fs2 = .ok out) :
    (∀ k, k ≠ "steps" → k ≠ "tags" → jlookup out k = jlookup fs2 k) ∧
    (jlookup out "tags" =
      if Json.truthyOpt (jlookup fs2 "tags") then jlookup fs2 "tags"
      else some (Json.arr [])) ∧
    (∀ xs, jlookup fs2 "steps" = some (Json.arr xs) →
      ∃ ys, normSteps 0 xs = .ok ys ∧ jlookup out "steps" = some (Json.arr ys)) := by
  unfold bedrockNormalizeSteps at h
  split at h
  · next xs heq =>
    split at h
    · exact absurd h (by simp)
    · next ys hys =>
      have hout : out = bedrockNormalizeTags (setProp fs2 "steps" (Json.arr ys)) :=
        (Except.ok.injEq _ _).mp h.symm
      subst hout
      refine ⟨?_, ?_, ?_⟩
      · intro k hk1 hk2
        rw [bedrockNormalizeTags_lookup_ne _ _ hk2,
          jlookup_setProp_ne _ _ _ _ hk1]
      · rw [bedrockNormalizeTags_lookup_tags,
          jlookup_setProp_ne _ _ _ _ (by decide)]
      · intro xs' hxs'
        rw [heq] at hxs'
        obtain rfl : xs = xs' := by
          simpa using hxs'
        exact ⟨ys, hys, by
          rw [bedrockNormalizeTags_lookup_ne _ _ (by decide),
            jlookup_setProp_self]⟩
  · next hne =>
    have hout : out = bedrockNormalizeTags fs2 := (Except.ok.injEq _ _).mp h.symm
    subst hout
    refine ⟨?_, ?_, ?_⟩
    · intro k _ hk2
      exact bedrockNormalizeTags_lookup_ne _ _ hk2
    · exact bedrockNormalizeTags_lookup_tags fs2
    · intro xs hxs
      exact absurd hxs (hne xs)

theorem bedrockNormalizeIngredients_ok (fs1 out : List (String × Json))
    (h : bedrockNormalizeIngredients fs1 = .ok out) :
    (∀ k, k ≠ "ingredients" → k ≠ "steps" → k ≠ "tags" →
      jlookup out k = jlookup fs1 k) ∧
    (jlookup out "tags" =
      if Json.truthyOpt (jlookup fs1 "tags") then jlookup fs1 "tags"
      else some (Json.arr [])) ∧
    (∀ xs, jlookup fs1 "ingredients" = some (Json.arr xs) →
      ∃ ys, normIngredients xs = .ok ys ∧
        jlookup out "ingredients" = some (Json.arr ys)) ∧
    (∀ xs, jlookup fs1 "steps" = some (Json.arr xs) →
      ∃ ys, normSteps 0 xs = .ok ys ∧ jlookup out "steps" = some (Json.arr ys)) := by
  unfold bedrockNormalizeIngredients at h
  split at h
  · next xs heq =>
    split at h
    · exact absurd h (by simp)
    · next ys hys =>
      obtain ⟨hne, htags, hsteps⟩ := bedrockNormalizeSteps_ok _ _ h
      refine ⟨?_, ?_, ?_, ?_⟩
      · intro k hk1 hk2 hk3
        rw [hne k hk2 hk3, jlookup_setProp_ne _ _ _ _ hk1]
      · rw [htags, jlookup_setProp_ne _ _ _ _ (by decide)]
      · intro xs' hxs'
        rw [heq] at hxs'
        obtain rfl : xs = xs' := by simpa using hxs'
        exact ⟨ys, hys, by
          rw [hne "ingredients" (by decide) (by decide), jlookup_setProp_self]⟩
      · intro xs' hxs'
        apply hsteps
        rw [jlookup_setProp_ne _ _ _ _ (by decide)]
        exact hxs'
  · next hnotarr =>
    obtain ⟨hne, htags, hsteps⟩ := bedrockNormalizeSteps_ok _ _ h
    exact ⟨fun k _ hk2 hk3 => hne k hk2 hk3, htags, fun xs hxs =>
      absurd hxs (hnotarr xs), hsteps⟩

theorem bedrockNormalize_ok (fs out : List (String × Json))
    (h : bedrockNormalize fs = .ok out) :
    (jlookup out "servings" =
      if Json.truthyOpt (jlookup fs "servings") then jlookup fs "servings"
      else some (Json.num 4)) ∧
    (jlookup out "tags" =
      if Json.truthyOpt (jlookup fs "tags") then jlookup fs "tags"
      else some (Json.arr [])) ∧
    (∀ xs, jlookup fs "ingredients" = some (Json.arr xs) →
      ∃ ys, normIngredients xs = .ok ys ∧
        jlookup out "ingredients" = some (Json.arr ys)) ∧
    (∀ xs, jlookup fs "steps" = some (Json.arr xs) →
      ∃ ys, normSteps 0 xs = .ok ys ∧ jlookup out "steps" = some (Json.arr ys)) := by
  unfold bedrockNormalize at h
  obtain ⟨hne, htags, hing, hsteps⟩ := bedrockNormalizeIngredients_ok _ _ h
  by_cases hs : Json.truthyOpt (jlookup fs "servings") = true
  · rw [if_pos hs] at hne htags hing hsteps
    refine ⟨?_, ?_, hing, hsteps⟩
    · rw [hne "servings" (by decide) (by decide) (by decide), if_pos hs]
    · exact htags
  · rw [if_neg hs] at hne htags hing hsteps
    refine ⟨?_, ?_, ?_, ?_⟩
    · rw [hne "servings" (by decide) (by decide) (by decide),
        jlookup_setProp_self, if_neg hs]
    · rw [htags, jlookup_setProp_ne _ _ _ _ (by decide)]
    · intro xs hxs
      apply hing
      rw [jlookup_setProp_ne _ _ _ _ (by decide)]
      exact hxs
    · intro xs hxs
      apply hsteps
      rw [jlookup_setProp_ne _ _ _ _ (by decide)]
      exact hxs

theorem normUnit_ok (v : Option Json) (s : String) (h : normUnit v = .ok s) :
    ∃ t, s = jsToLower t := by
  have hempty : ("" : String) = jsToLower "" := rfl
  match v with
  | none =>
    refine ⟨"", ?_⟩
    rw [← hempty]
    simpa [normUnit] using h.symm
  | some u =>
    simp only [normUnit] at h
    by_cases ht : u.truthy = true
    · rw [if_pos ht] at h
      split at h
      · next t => exact ⟨t, by simpa using h.symm⟩
      · exact absurd h (by simp)
    · rw [if_neg ht] at h
      refine ⟨"", ?_⟩
      rw [← hempty]
      simpa using h.symm

theorem normIngredient_ok (x y : Json) (h : normIngredient x = .ok y) :
    (jprop y "quantity" = some (normQuantity (jprop x "quantity"))) ∧
    (∃ u, jprop y "unit" = some (Json.str u) ∧ noUpper u = true) := by
  unfold normIngredient at h
  split at h
  · exact absurd h (by simp)
  · split at h
    · exact absurd h (by simp)
    · next s hs =>
      have hy : y = Json.obj ((match jprop x "name" with
          | some nv => [("name", nv)]
          | none => []) ++
          [("quantity", normQuantity (jprop x "quantity")),
           ("unit", Json.str s)]) := ((Except.ok.injEq _ _).mp h).symm
      subst hy
      constructor
      · rcases hn : jprop x "name" with - | nv
        · simp [hn, jprop, jlookup]
        · simp [hn, jprop, jlookup]
      · refine ⟨s, ?_, ?_⟩
        · rcases hn : jprop x "name" with - | nv
          · simp [hn, jprop, jlookup]
          · simp [hn, jprop, jlookup]
        · obtain ⟨t, rfl⟩ := normUnit_ok _ _ hs
          exact noUpper_jsToLower t

theorem normStep_ok (i : Nat) (x y : Json) (h : normStep i x = .ok y) :
    jprop y "order" = some (normOrder i (jprop x "order")) := by
  unfold normStep at h
  split at h
  · exact absurd h (by simp)
  · have hy := ((Except.ok.injEq _ _).mp h).symm
    subst hy
    simp [jprop, jlookup]

/-! ## Claim theorems -/

/-- C1: for every input on which backend extraction succeeds (non-blank
text, adapter returns a recipe) and the extracted recipe passes
validation, a downstream-submission failure is captured, not propagated:
`extractRecipeFromText` still returns successfully, the returned `recipe`
equals the adapter's recipe unchanged, and the returned `apiResponse`
records the failure as `{error: message, sent: false}`. -/
theorem extractRecipeFromText_captures_send_failure
    (modelId recipeText : String) (recipe : Json) (errs : List String)
    (sendMsg now : String)
    (htrim : jsTrim recipeText ≠ "")
    (hval : validateRecipe (some recipe) = .ok (true, errs)) :
    extractRecipeFromText modelId recipeText (.ok recipe) (.error sendMsg) now =
      .ok { recipe := recipe,
            apiResponse := Json.obj
              [("error", Json.str sendMsg), ("sent", Json.bool false)],
            extractedAt := now, modelUsed := modelId } := by
  simp [extractRecipeFromText, orchestratorCore, htrim, hval]

/-- Witness for C1 at a concrete recipe and a concrete failed submission. -/
theorem extractRecipeFromText_captures_send_failure_witness :
    jsTrim "Salade verte" ≠ "" ∧
    validateRecipe (some sampleRecipe) = .ok (true, []) ∧
    extractRecipeFromText "model-a" "Salade verte" (.ok sampleRecipe)
        (.error "Lambda execution failed") "2024-01-01" =
      .ok { recipe := sampleRecipe,
            apiResponse := Json.obj
              [("error", Json.str "Lambda execution failed"),
               ("sent", Json.bool false)],
            extractedAt := "2024-01-01", modelUsed := "model-a" } :=
  ⟨by decide, by rfl,
    extractRecipeFromText_captures_send_failure "model-a" "Salade verte"
      sampleRecipe [] "Lambda execution failed" "2024-01-01"
      (by decide) (by rfl)⟩

/-- C3 (counterexample): the two backend failure kinds do arise — a
protocol failure on an envelope with no textual content item, a format
failure when the text fails to parse — but on the direct-request path both
are mapped to the same externally-visible status code 503, because the
format-failure message itself contains "Bedrock" and is re-labelled as a
Bedrock service error by the orchestrator.  The claim that they map to
different status codes is therefore false. -/
theorem bedrockFailures_both_503 :
    bedrockExtractRecipe failParse (Json.obj [("foo", Json.null)]) =
      .error bedrockProtocolErrorMsg ∧
    bedrockExtractRecipe failParse claudeTextEnvelope =
      .error bedrockFormatErrorMsg ∧
    (apiGatewayCatch (controllerEnrich bedrockProtocolErrorMsg)).statusCode = 503 ∧
    (apiGatewayCatch (controllerEnrich bedrockFormatErrorMsg)).statusCode = 503 :=
  ⟨rfl, rfl, rfl, rfl⟩

/-- C3 (amended): the two backend failure kinds are distinguishable by the
orchestrator — distinct adapter messages that stay distinct after the
orchestrator's enrichment — but the direct-request path maps both to the
same externally-visible status code, 503. -/
theorem bedrockFailures_distinguishable_same_status :
    bedrockProtocolErrorMsg ≠ bedrockFormatErrorMsg ∧
    controllerEnrich bedrockProtocolErrorMsg ≠
      controllerEnrich bedrockFormatErrorMsg ∧
    (apiGatewayCatch (controllerEnrich bedrockProtocolErrorMsg)).statusCode =
      (apiGatewayCatch (controllerEnrich bedrockFormatErrorMsg)).statusCode ∧
    (apiGatewayCatch (controllerEnrich bedrockProtocolErrorMsg)).statusCode = 503 :=
  ⟨by decide, by decide, rfl, rfl⟩

/-- C4 (counterexample): when both probes report unavailable — not a
partial outage — `healthCheck` still reports `degraded`, contradicting the
claim that `degraded` is returned exactly when one dependency is available
and one is not. -/
theorem healthCheck_degraded_both_unavailable :
    (healthCheck (.ok (false, false)) "t").status = "degraded" ∧
    (healthCheck (.ok (false, false)) "t").status ≠ "unhealthy" :=
  ⟨rfl, by decide⟩

/-- C4 (amended): `healthCheck` reports `healthy` iff both probes are
available, `degraded` exactly when the probing returns and at least one
dependency is unavailable (including both), and `unhealthy` exactly when
the probing itself throws. -/
theorem healthCheck_classification (b a : Bool) (e now : String) :
    ((healthCheck (.ok (b, a)) now).status = "healthy" ↔ (b = true ∧ a = true)) ∧
    ((healthCheck (.ok (b, a)) now).status = "degraded" ↔ ¬(b = true ∧ a = true)) ∧
    (healthCheck (.error e) now).status = "unhealthy" := by
  cases b <;> cases a <;> simp [healthCheck]

/-- Witness for C4 (amended) at concrete probe outcomes. -/
theorem healthCheck_classification_witness :
    (healthCheck (.ok (true, true)) "t").status = "healthy" ∧
    (healthCheck (.ok (true, false)) "t").status = "degraded" ∧
    (healthCheck (.error "boom") "t").status = "unhealthy" :=
  ⟨(healthCheck_classification true true "boom" "t").1.mpr ⟨rfl, rfl⟩,
   (healthCheck_classification true false "boom" "t").2.1.mpr (by simp),
   (healthCheck_classification true false "boom" "t").2.2⟩

/-- C9: the adapter's defaulting is truthiness-based, so explicit zeros
are rewritten exactly as omissions are: `servings: 0` becomes 4 (as does
an absent `servings`), an ingredient `quantity: 0` becomes 1 (as does an
absent quantity), and a step `order: 0` becomes the 1-based position
`index + 1` (as does an absent order). -/
theorem bedrockNormalize_zero_defaults :
    (∀ fs out, bedrockNormalize fs = .ok out →
      jlookup fs "servings" = some (Json.num 0) →
      jlookup out "servings" = some (Json.num 4)) ∧
    (∀ fs out, bedrockNormalize fs = .ok out →
      jlookup fs "servings" = none →
      jlookup out "servings" = some (Json.num 4)) ∧
    (∀ x y, normIngredient x = .ok y →
      jprop x "quantity" = some (Json.num 0) →
      jprop y "quantity" = some (Json.num 1)) ∧
    (∀ x y, normIngredient x = .ok y →
      jprop x "quantity" = none →
      jprop y "quantity" = some (Json.num 1)) ∧
    (∀ i x y, normStep i x = .ok y →
      jprop x "order" = some (Json.num 0) →
      jprop y "order" = some (Json.num ((i : Rat) + 1))) ∧
    (∀ i x y, normStep i x = .ok y →
      jprop x "order" = none →
      jprop y "order" = some (Json.num ((i : Rat) + 1))) := by
  refine ⟨?_, ?_, ?_, ?_, ?_, ?_⟩
  · intro fs out h hs
    have hx := (bedrockNormalize_ok fs out h).1
    rw [hs] at hx
    simpa [Json.truthyOpt, Json.truthy] using hx
  · intro fs out h hs
    have hx := (bedrockNormalize_ok fs out h).1
    rw [hs] at hx
    simpa [Json.truthyOpt] using hx
  · intro x y h hq
    have hx := (normIngredient_ok x y h).1
    rw [hq] at hx
    simpa [normQuantity, Json.truthy] using hx
  · intro x y h hq
    have hx := (normIngredient_ok x y h).1
    rw [hq] at hx
    simpa [normQuantity] using hx
  · intro i x y h ho
    have hx := normStep_ok i x y h
    rw [ho] at hx
    simpa [normOrder, Json.truthy] using hx
  · intro i x y h ho
    have hx := normStep_ok i x y h
    rw [ho] at hx
    simpa [normOrder] using hx

/-- Witness for C9 at a concrete recipe with explicit zeros. -/
theorem bedrockNormalize_zero_defaults_witness :
    jlookup [("servings", Json.num 0), ("tags", Json.arr [])]
      "servings" = some (Json.num 0) ∧
    jlookup [("servings", Json.num 4), ("tags", Json.arr [])]
      "servings" = some (Json.num 4) :=
  ⟨rfl, bedrockNormalize_zero_defaults.1
    [("servings", Json.num 0), ("tags", Json.arr [])]
    [("servings", Json.num 4), ("tags", Json.arr [])]
    (by rfl) (by rfl)⟩

/-- C10: event classification inspects only the first record — an event is
routed to the SQS path iff `Records[0]?.eventSource` is `aws:sqs`, to the
S3 path iff it is `aws:s3`, and otherwise (absent `Records`, empty array,
or a first record without the marker) it is processed as a direct API
request. -/
theorem routeEvent_first_record :
    (routeEvent none = Route.api) ∧
    (routeEvent (some []) = Route.api) ∧
    (∀ rs, routeEvent (some rs) = Route.sqs ↔
      firstEventSource rs = some "aws:sqs") ∧
    (∀ rs, routeEvent (some rs) = Route.s3 ↔
      firstEventSource rs = some "aws:s3") ∧
    (∀ rs, routeEvent (some rs) = Route.api ↔
      (firstEventSource rs ≠ some "aws:sqs" ∧
       firstEventSource rs ≠ some "aws:s3")) ∧
    (∀ r rest rest',
      routeEvent (some (r :: rest)) = routeEvent (some (r :: rest'))) := by
  refine ⟨rfl, rfl, ?_, ?_, ?_, ?_⟩
  · intro rs
    unfold routeEvent
    by_cases h1 : firstEventSource rs = some "aws:sqs"
    · simp [h1]
    · by_cases h2 : firstEventSource rs = some "aws:s3" <;> simp [h1, h2]
  · intro rs
    unfold routeEvent
    by_cases h1 : firstEventSource rs = some "aws:sqs"
    · simp [h1]
    · by_cases h2 : firstEventSource rs = some "aws:s3" <;> simp [h1, h2]
  · intro rs
    unfold routeEvent
    by_cases h1 : firstEventSource rs = some "aws:sqs"
    · simp [h1]
    · by_cases h2 : firstEventSource rs = some "aws:s3" <;> simp [h1, h2]
  · intro r rest rest'
    simp [routeEvent, firstEventSource]

/-- Witness for C10 at concrete events of each kind. -/
theorem routeEvent_first_record_witness :
    routeEvent (some [some "aws:sqs", some "aws:s3"]) = Route.sqs ∧
    routeEvent (some [some "aws:s3"]) = Route.s3 ∧
    routeEvent (some [none, some "aws:sqs"]) = Route.api ∧
    routeEvent none = Route.api :=
  ⟨(routeEvent_first_record.2.2.1 _).mpr rfl,
   (routeEvent_first_record.2.2.2.1 _).mpr rfl,
   (routeEvent_first_record.2.2.2.2.1 _).mpr ⟨by decide, by decide⟩,
   routeEvent_first_record.1⟩

/-- Headers-of-success helper for the URL path: every response that
`urlAttempt` returns (rather than throws) carries the shared header
block. -/
theorem urlAttempt_ok_headers (url : String) (f : Except String WebContent)
    (run : String → Except String ExtractionResultM) (resp : HttpResp)
    (h : urlAttempt url f run = .ok resp) : resp.headers = corsHeaders := by
  unfold urlAttempt at h
  split at h
  · exact absurd h (by simp)
  · split at h
    · rw [← (Except.ok.injEq _ _).mp h]
      rfl
    · split at h
      · exact absurd h (by simp)
      · rw [← (Except.ok.injEq _ _).mp h]
        rfl

/-- C2 (amended): for every recipe the adapter's normalization returns,
`servings` defaults to 4 exactly when the backend's `servings` is absent
or falsy and passes through unchanged otherwise; `tags` likewise defaults
to the empty array exactly when absent or falsy; the `ingredients` and
`steps` arrays are rewritten element-wise, where every rewritten
ingredient's `unit` is a lower-cased string and its `quantity` is the
backend's value when truthy and the number 1 otherwise, and every
rewritten step whose backend `order` was absent or falsy gets the positive
order `index + 1`. -/
theorem bedrockAdapter_shape :
    (∀ fs out, bedrockNormalize fs = .ok out →
      (Json.truthyOpt (jlookup fs "servings") = false →
        jlookup out "servings" = some (Json.num 4)) ∧
      (Json.truthyOpt (jlookup fs "servings") = true →
        jlookup out "servings" = jlookup fs "servings") ∧
      (Json.truthyOpt (jlookup fs "tags") = false →
        jlookup out "tags" = some (Json.arr [])) ∧
      (Json.truthyOpt (jlookup fs "tags") = true →
        jlookup out "tags" = jlookup fs "tags") ∧
      (∀ xs, jlookup fs "ingredients" = some (Json.arr xs) →
        ∃ ys, normIngredients xs = .ok ys ∧
          jlookup out "ingredients" = some (Json.arr ys)) ∧
      (∀ xs, jlookup fs "steps" = some (Json.arr xs) →
        ∃ ys, normSteps 0 xs = .ok ys ∧
          jlookup out "steps" = some (Json.arr ys))) ∧
    (∀ x y, normIngredient x = .ok y →
      (∃ u, jprop y "unit" = some (Json.str u) ∧ noUpper u = true) ∧
      (jprop y "quantity" = some (Json.num 1) ∨
        (∃ q, jprop x "quantity" = some q ∧ q.truthy = true ∧
          jprop y "quantity" = some q))) ∧
    (∀ i x y, normStep i x = .ok y →
      Json.truthyOpt (jprop x "order") = false →
        jprop y "order" = some (Json.num ((i : Rat) + 1)) ∧
        (0 : Rat) < (i : Rat) + 1) := by
  refine ⟨?_, ?_, ?_⟩
  · intro fs out h
    obtain ⟨hserv, htags, hing, hsteps⟩ := bedrockNormalize_ok fs out h
    refine ⟨?_, ?_, ?_, ?_, hing, hsteps⟩
    · intro hf
      rw [hserv]
      simp [hf]
    · intro ht
      rw [hserv]
      simp [ht]
    · intro hf
      rw [htags]
      simp [hf]
    · intro ht
      rw [htags]
      simp [ht]
  · intro x y h
    obtain ⟨hq, hu⟩ := normIngredient_ok x y h
    refine ⟨hu, ?_⟩
    rcases hx : jprop x "quantity" with - | q
    · rw [hx] at hq
      left
      simpa [normQuantity] using hq
    · by_cases ht : q.truthy = true
      · right
        refine ⟨q, rfl, ht, ?_⟩
        rw [hx] at hq
        simpa [normQuantity, ht] using hq
      · left
        rw [hx] at hq
        simpa [normQuantity, ht] using hq
  · intro i x y h hfalsy
    have hord := normStep_ok i x y h
    constructor
    · rcases hx : jprop x "order" with - | v
      · rw [hx] at hord
        simpa [normOrder] using hord
      · rw [hx] at hfalsy
        simp [Json.truthyOpt] at hfalsy
        rw [hx] at hord
        simpa [normOrder, hfalsy] using hord
    · have h0 : (0 : Rat) ≤ (i : Rat) := by positivity
      linarith

/-- C2 (counterexample): a backend payload with `servings: -2` (truthy,
so untouched by the defaulting) is returned by the adapter with a
non-positive `servings`, refuting the claim that `servings` is always a
positive number.  (The same truthiness gap makes a truthy non-numeric
`quantity` or a truthy non-array `tags` pass through.) -/
theorem bedrockAdapter_nonpositive_servings :
    bedrockExtractRecipe parseToNegServings claudeTextEnvelope =
      .ok negServingsRecipe ∧
    jprop negServingsRecipe "servings" = some (Json.num (-2)) ∧
    ¬ (0 : Rat) < (-2 : Rat) :=
  ⟨rfl, rfl, by norm_num⟩

/-- Witness for C2 (amended): normalizing fields without `servings` or
`tags` appends the defaults. -/
theorem bedrockAdapter_shape_witness :
    bedrockNormalize sampleShapeFields = .ok sampleShapeOut ∧
    jlookup sampleShapeOut "servings" = some (Json.num 4) ∧
    jlookup sampleShapeOut "tags" = some (Json.arr []) :=
  ⟨rfl,
   (bedrockAdapter_shape.1 sampleShapeFields sampleShapeOut rfl).1 rfl,
   (bedrockAdapter_shape.1 sampleShapeFields sampleShapeOut rfl).2.2.1 rfl⟩

/-- C8: every response built by the direct-request handlers carries
exactly the headers `Content-Type: application/json`,
`Access-Control-Allow-Origin: *` and
`Access-Control-Allow-Credentials: true`; the body's `success` field is
`true` exactly for `successResponse` envelopes (which carry `data`) and
`false` exactly for `errorResponse` envelopes (which always carry
`error.message` and `error.details`). -/
theorem responseEnvelope_invariant :
    (∀ d sc,
      (successResponse d sc).statusCode = sc ∧
      (successResponse d sc).headers =
        [("Content-Type", Json.str "application/json"),
         ("Access-Control-Allow-Origin", Json.str "*"),
         ("Access-Control-Allow-Credentials", Json.bool true)] ∧
      jprop (successResponse d sc).body "success" = some (Json.bool true) ∧
      jprop (successResponse d sc).body "data" = some d ∧
      jprop (successResponse d sc).body "error" = none) ∧
    (∀ msg sc det,
      (errorResponse msg sc det).statusCode = sc ∧
      (errorResponse msg sc det).headers =
        [("Content-Type", Json.str "application/json"),
         ("Access-Control-Allow-Origin", Json.str "*"),
         ("Access-Control-Allow-Credentials", Json.bool true)] ∧
      jprop (errorResponse msg sc det).body "success" = some (Json.bool false) ∧
      jprop (errorResponse msg sc det).body "error" =
        some (Json.obj [("message", Json.str msg),
                        ("details", Json.arr det)]) ∧
      jprop (errorResponse msg sc det).body "data" = none) ∧
    (∀ t run resp, handleTextExtraction t run = .ok resp →
      resp.headers = corsHeaders) ∧
    (∀ u v f run resp, handleUrlExtraction u v f run = .ok resp →
      resp.headers = corsHeaders) ∧
    (∀ msg, (apiGatewayCatch msg).headers = corsHeaders) := by
  refine ⟨?_, ?_, ?_, ?_, ?_⟩
  · intro d sc
    exact ⟨rfl, rfl, rfl, rfl, rfl⟩
  · intro msg sc det
    exact ⟨rfl, rfl, rfl, rfl, rfl⟩
  · intro t run resp h
    unfold handleTextExtraction at h
    split at h
    · rw [← (Except.ok.injEq _ _).mp h]
      rfl
    · split at h
      · exact absurd h (by simp)
      · rw [← (Except.ok.injEq _ _).mp h]
        rfl
  · intro u v f run resp h
    unfold handleUrlExtraction at h
    split at h
    · rw [← (Except.ok.injEq _ _).mp h]
      rfl
    · split at h
      · next resp' hresp' =>
        rw [← (Except.ok.injEq _ _).mp h]
        exact urlAttempt_ok_headers u f run resp' hresp'
      · split at h
        · rw [← (Except.ok.injEq _ _).mp h]
          rfl
        · exact absurd h (by simp)
  · intro msg
    unfold apiGatewayCatch
    split
    · rfl
    · split
      · rfl
      · split
        · rfl
        · rfl

/-- Witness for C8: a concrete handler run yields the exact header
block. -/
theorem responseEnvelope_invariant_witness :
    (successResponse (Json.obj (resultFields sampleResult)) 200).headers =
      corsHeaders :=
  responseEnvelope_invariant.2.2.1 "x" (fun _ => .ok sampleResult)
    (successResponse (Json.obj (resultFields sampleResult)) 200) (by rfl)

/-- C6 (counterexample): a non-null candidate object whose `ingredients`
array contains `null` makes `validateRecipe` throw a `TypeError` on the
first property read instead of returning an accumulated error list, so the
claim does not hold for every non-null candidate object. -/
theorem validateRecipe_throws_on_null_element :
    validateRecipe (some (Json.obj [("ingredients", Json.arr [Json.null])])) =
      .error typeErrorNull := rfl

/-- C6 (amended): whenever `validateRecipe` returns (in particular for
every candidate whose `ingredients` and `steps` arrays contain no `null`
element), the rules are checked independently and the error messages
accumulated — a candidate missing both `title` and `servings` yields at
least two errors, containing both messages; the `valid` flag is true iff
the error list is empty; and a null or absent candidate yields `false`
with exactly the one error. -/
theorem validateRecipe_accumulates :
    (validateRecipe none = .ok (false, ["Recipe object is required"])) ∧
    (validateRecipe (some Json.null) = .ok (false, ["Recipe object is required"])) ∧
    (∀ r v errs, validateRecipe (some r) = .ok (v, errs) →
      (v = true ↔ errs = [])) ∧
    (∀ fs v errs, jlookup fs "title" = none → jlookup fs "servings" = none →
      validateRecipe (some (Json.obj fs)) = .ok (v, errs) →
      2 ≤ errs.length ∧
      "Title is required and must be a string" ∈ errs ∧
      "Servings is required and must be a number" ∈ errs) := by
  refine ⟨rfl, rfl, ?_, ?_⟩
  · intro r v errs h
    simp only [validateRecipe] at h
    split at h
    · have hp := (Except.ok.injEq _ _).mp h
      injection hp with hv he
      subst hv
      subst he
      simp
    · split at h
      · exact absurd h (by simp)
      · split at h
        · exact absurd h (by simp)
        · have hp := (Except.ok.injEq _ _).mp h
          injection hp with hv he
          subst hv
          subst he
          exact List.isEmpty_iff
  · intro fs v errs ht hs h
    simp only [validateRecipe] at h
    rw [if_neg (by simp [Json.truthy])] at h
    split at h
    · exact absurd h (by simp)
    · split at h
      · exact absurd h (by simp)
      · have hp := (Except.ok.injEq _ _).mp h
        injection hp with hv he
        subst hv
        subst he
        refine ⟨?_, ?_, ?_⟩
        · simp [validateErrors, jprop, ht, hs, okStringProp, okNumberTruthyProp]
        · simp [validateErrors, jprop, ht, hs, okStringProp, okNumberTruthyProp]
        · simp [validateErrors, jprop, ht, hs, okStringProp, okNumberTruthyProp]

/-- Witness for C6 (amended) at a candidate missing both `title` and
`servings`. -/
theorem validateRecipe_accumulates_witness :
    (false = true ↔ (["Title is required and must be a string",
        "Servings is required and must be a number"] : List String) = []) ∧
    2 ≤ (["Title is required and must be a string",
        "Servings is required and must be a number"] : List String).length :=
  ⟨validateRecipe_accumulates.2.2.1
      (Json.obj [("ingredients", Json.arr []), ("steps", Json.arr []),
        ("tags", Json.arr [])]) false _ (by rfl),
   (validateRecipe_accumulates.2.2.2
      [("ingredients", Json.arr []), ("steps", Json.arr []),
       ("tags", Json.arr [])]
      false _ (by rfl) (by rfl) (by rfl)).1⟩

/-- Helper: length of the long letter text. -/
theorem longLetterText_length : longLetterText.length = 50001 := by
  unfold longLetterText
  show (List.replicate 50001 'a').length = 50001
  exact List.length_replicate _ _

/-- Helper: a global-replace scan on which the step never fires is the
identity. -/
theorem scanReplaceAux_id (step : List Char → Option (List Char × List Char)) :
    ∀ (n : Nat) (l : List Char),
      (∀ c cs, (c :: cs) <:+ l → step (c :: cs) = none) →
      scanReplaceAux step n l = l := by
  intro n
  induction n with
  | zero => intro l _; rfl
  | succ n ih =>
    intro l hl
    cases l with
    | nil => rfl
    | cons c rest =>
      have hstep : step (c :: rest) = none := hl c rest (List.suffix_refl _)
      simp only [scanReplaceAux, hstep]
      exact congrArg (c :: ·)
        (ih rest (fun c' cs' hsuf => hl c' cs' (hsuf.trans (List.suffix_cons c rest))))

/-- Helper: `scanReplace` version of `scanReplaceAux_id`. -/
theorem scanReplace_id (step : List Char → Option (List Char × List Char))
    (l : List Char)
    (h : ∀ c cs, (c :: cs) <:+ l → step (c :: cs) = none) :
    scanReplace step l = l :=
  scanReplaceAux_id step l.length l h

/-- Helper: `stepBlock` fires only at an opening angle bracket. -/
theorem stepBlock_none (tag : List Char) (c : Char) (cs : List Char)
    (h : c ≠ '<') : stepBlock tag (c :: cs) = none := by
  unfold stepBlock
  split <;> simp_all

/-- Helper: `stepComment` fires only at an opening angle bracket. -/
theorem stepComment_none (c : Char) (cs : List Char) (h : c ≠ '<') :
    stepComment (c :: cs) = none := by
  unfold stepComment
  split <;> simp_all

/-- Helper: `stepCloseBlock` fires only at an opening angle bracket. -/
theorem stepCloseBlock_none (c : Char) (cs : List Char) (h : c ≠ '<') :
    stepCloseBlock (c :: cs) = none := by
  unfold stepCloseBlock
  split <;> simp_all

/-- Helper: `stepBrHr` fires only at an opening angle bracket. -/
theorem stepBrHr_none (c : Char) (cs : List Char) (h : c ≠ '<') :
    stepBrHr (c :: cs) = none := by
  unfold stepBrHr
  split <;> simp_all

/-- Helper: `stepAnyTag` fires only at an opening angle bracket. -/
theorem stepAnyTag_none (c : Char) (cs : List Char) (h : c ≠ '<') :
    stepAnyTag (c :: cs) = none := by
  unfold stepAnyTag
  split <;> simp_all

/-- Helper: an entity replacement (pattern starting with an ampersand)
fires only at an ampersand. -/
theorem stepEntity_amp_none (ps rep : List Char) (c : Char) (cs : List Char)
    (h : c ≠ '&') : stepEntity ('&' :: ps) rep (c :: cs) = none := by
  simp [stepEntity, dropPrefixExact, h]

/-- Helper: `stepBlankLines` fires only at a newline. -/
theorem stepBlankLines_none (c : Char) (cs : List Char) (h : c ≠ '\n') :
    stepBlankLines (c :: cs) = none := by
  unfold stepBlankLines
  split <;> simp_all

/-- Helper: the tail of a double-space-free list is double-space-free. -/
theorem noDoubleSpace_tail (c : Char) (rest : List Char)
    (h : noDoubleSpace (c :: rest) = true) : noDoubleSpace rest = true := by
  cases rest with
  | nil => rfl
  | cons d ds =>
    simp only [noDoubleSpace, Bool.and_eq_true] at h
    exact h.2

/-- Helper: the space-collapsing scan is the identity on tab-free lists
with no adjacent double space. -/
theorem scanReplaceAux_stepSpaces_id :
    ∀ (n : Nat) (l : List Char), '\t' ∉ l → noDoubleSpace l = true →
      scanReplaceAux stepSpaces n l = l := by
  intro n
  induction n with
  | zero => intro l _ _; rfl
  | succ n ih =>
    intro l htab hnd
    cases l with
    | nil => rfl
    | cons c rest =>
      have htab' : '\t' ∉ rest := fun hm => htab (List.mem_cons_of_mem c hm)
      have hnd' := noDoubleSpace_tail c rest hnd
      by_cases hsp : spaceTab c = true
      · have hc : c = ' ' := by
          rcases (by simpa [spaceTab] using hsp : c = ' ' ∨ c = '\t') with
            hx | hx
          · exact hx
          · rw [hx] at htab
            exact absurd (List.mem_cons_self _ _) htab
        subst hc
        have hdrop : rest.dropWhile spaceTab = rest := by
          cases rest with
          | nil => rfl
          | cons d ds =>
            have hd : d ≠ ' ' := by
              intro hx
              rw [hx] at hnd
              simp [noDoubleSpace] at hnd
            have hdt : d ≠ '\t' := by
              intro hx
              exact htab' (by rw [hx]; exact List.mem_cons_self _ _)
            rw [List.dropWhile_cons_of_neg (by simp [spaceTab, hd, hdt])]
        have hstep : stepSpaces (' ' :: rest) =
            some ([' '], rest.dropWhile spaceTab) := by
          simp [stepSpaces, spaceTab]
        simp only [scanReplaceAux, hstep, hdrop]
        exact congrArg (fun t => [' '] ++ t) (ih rest htab' hnd')
      · have hstep : stepSpaces (c :: rest) = none := by
          simp [stepSpaces, hsp]
        simp only [scanReplaceAux, hstep]
        exact congrArg (c :: ·) (ih rest htab' hnd')

/-- Helper: dropping leading whitespace changes nothing when the head is
not whitespace. -/
theorem dropWhile_jsSpace_id_of_headNotSpace (l : List Char)
    (h : headNotSpace l = true) : l.dropWhile jsSpace = l := by
  cases l with
  | nil => rfl
  | cons c rest =>
    rw [List.dropWhile_cons_of_neg]
    simp only [headNotSpace, Bool.not_eq_true'] at h
    simp [h]

/-- Helper: trimming is the identity when neither end is whitespace. -/
theorem jsTrimList_id (l : List Char) (h1 : headNotSpace l = true)
    (h2 : headNotSpace l.reverse = true) : jsTrimList l = l := by
  unfold jsTrimList
  rw [dropWhile_jsSpace_id_of_headNotSpace l h1,
    dropWhile_jsSpace_id_of_headNotSpace l.reverse h2,
    List.reverse_reverse]

/-- Helper: the whole extraction pipeline is the identity on plain text
(no markup, no entities, normalized whitespace, trimmed). -/
theorem extractTextList_id_of_plain (l : List Char)
    (h : plainText l = true) : extractTextList l = l := by
  simp only [plainText, Bool.and_eq_true] at h
  obtain ⟨⟨⟨hall, hnd⟩, hh⟩, hhr⟩ := h
  rw [List.all_eq_true] at hall
  have hchar : ∀ c ∈ l, c ≠ '<' ∧ c ≠ '&' ∧ c ≠ '\n' ∧ c ≠ '\t' := by
    intro c hc
    have hx := hall c hc
    simp only [Bool.and_eq_true, decide_eq_true_eq] at hx
    exact ⟨hx.1.1.1, hx.1.1.2, hx.1.2, hx.2⟩
  have hmem : ∀ (c : Char) (cs : List Char), (c :: cs) <:+ l → c ∈ l :=
    fun c cs hsuf => hsuf.subset (List.mem_cons_self c cs)
  have htab : '\t' ∉ l := fun hm => (hchar _ hm).2.2.2 rfl
  simp only [extractTextList]
  rw [scanReplace_id _ l (fun c cs hs =>
        stepBlock_none _ c cs (hchar c (hmem c cs hs)).1),
      scanReplace_id _ l (fun c cs hs =>
        stepBlock_none _ c cs (hchar c (hmem c cs hs)).1),
      scanReplace_id _ l (fun c cs hs =>
        stepBlock_none _ c cs (hchar c (hmem c cs hs)).1),
      scanReplace_id _ l (fun c cs hs =>
        stepComment_none c cs (hchar c (hmem c cs hs)).1),
      scanReplace_id _ l (fun c cs hs =>
        stepCloseBlock_none c cs (hchar c (hmem c cs hs)).1),
      scanReplace_id _ l (fun c cs hs =>
        stepBrHr_none c cs (hchar c (hmem c cs hs)).1),
      scanReplace_id _ l (fun c cs hs =>
        stepAnyTag_none c cs (hchar c (hmem c cs hs)).1),
      scanReplace_id _ l (fun c cs hs =>
        stepEntity_amp_none "nbsp;".data [' '] c cs
          (hchar c (hmem c cs hs)).2.1),
      scanReplace_id _ l (fun c cs hs =>
        stepEntity_amp_none "amp;".data ['&'] c cs
          (hchar c (hmem c cs hs)).2.1),
      scanReplace_id _ l (fun c cs hs =>
        stepEntity_amp_none "lt;".data ['<'] c cs
          (hchar c (hmem c cs hs)).2.1),
      scanReplace_id _ l (fun c cs hs =>
        stepEntity_amp_none "gt;".data ['>'] c cs
          (hchar c (hmem c cs hs)).2.1),
      scanReplace_id _ l (fun c cs hs =>
        stepEntity_amp_none "quot;".data ['"'] c cs
          (hchar c (hmem c cs hs)).2.1),
      scanReplace_id _ l (fun c cs hs =>
        stepEntity_amp_none "#39;".data [Char.ofNat 39] c cs
          (hchar c (hmem c cs hs)).2.1),
      scanReplace_id _ l (fun c cs hs =>
        stepEntity_amp_none "euro;".data ['€'] c cs
          (hchar c (hmem c cs hs)).2.1),
      scanReplace_id _ l (fun c cs hs =>
        stepBlankLines_none c cs (hchar c (hmem c cs hs)).2.2.1),
      show scanReplace stepSpaces l = l from
        scanReplaceAux_stepSpaces_id l.length l htab hnd,
      jsTrimList_id l hh hhr]

/-- C7 (counterexample): `extractTextFromHtml` is not idempotent — on the
entity-encoded input `&lt;script&gt;x&lt;/script&gt;` one application
decodes the entities into a literal script tag, and a second application
strips that tag away entirely, so applying the function twice differs
from applying it once. -/
theorem extractText_not_idempotent :
    extractTextFromHtml "&lt;script&gt;x&lt;/script&gt;" =
      "<script>x</script>" ∧
    extractTextFromHtml
        (extractTextFromHtml "&lt;script&gt;x&lt;/script&gt;") = "" ∧
    extractTextFromHtml
        (extractTextFromHtml "&lt;script&gt;x&lt;/script&gt;") ≠
      extractTextFromHtml "&lt;script&gt;x&lt;/script&gt;" :=
  ⟨by decide, by decide, by decide⟩

/-- C7 (amended): `extractTextFromHtml` applied twice equals applied once
whenever the first application's output is plain text — it contains no
`<`, no `&`, no newline or tab, no double space, and no leading or
trailing whitespace (true of ordinary HTML inputs); inputs whose decoded
entities re-form markup or entities (see the counterexample) are the
exception. -/
theorem extractText_idempotent_on_plain (html : String)
    (h : plainText (extractTextList html.data) = true) :
    extractTextFromHtml (extractTextFromHtml html) =
      extractTextFromHtml html := by
  unfold extractTextFromHtml
  generalize hX : extractTextList html.data = X at h ⊢
  exact congrArg String.mk (extractTextList_id_of_plain X h)

/-- Witness for C7 (amended) on a concrete HTML fragment. -/
theorem extractText_idempotent_on_plain_witness :
    plainText (extractTextList ("<p>Hello world</p>" : String).data) = true ∧
    extractTextFromHtml (extractTextFromHtml "<p>Hello world</p>") =
      extractTextFromHtml "<p>Hello world</p>" :=
  ⟨by decide, extractText_idempotent_on_plain "<p>Hello world</p>" (by decide)⟩

/-- Helper: a run of a single non-space character has no double space. -/
theorem noDoubleSpace_replicate (n : Nat) (c : Char) (h : ¬ c = ' ') :
    noDoubleSpace (List.replicate n c) = true := by
  induction n with
  | zero => rfl
  | succ m ih =>
    cases m with
    | zero => rfl
    | succ k =>
      rw [List.replicate_succ, List.replicate_succ]
      simp only [noDoubleSpace, Bool.and_eq_true]
      rw [← List.replicate_succ]
      exact ⟨by simp [h], ih⟩

/-- Helper: a run of the letter a is plain text. -/
theorem plainText_replicate_letter (n : Nat) :
    plainText (List.replicate n 'a') = true := by
  simp only [plainText, Bool.and_eq_true]
  refine ⟨⟨⟨?_, ?_⟩, ?_⟩, ?_⟩
  · rw [List.all_eq_true]
    intro c hc
    rw [List.eq_of_mem_replicate hc]
    decide
  · exact noDoubleSpace_replicate n 'a' (by decide)
  · cases n with
    | zero => rfl
    | succ m =>
      rw [List.replicate_succ]
      rfl
  · rw [List.reverse_replicate]
    cases n with
    | zero => rfl
    | succ m =>
      rw [List.replicate_succ]
      rfl

/-- Helper: the 50001-letter text is a fixed point of the extractor. -/
theorem extractTextFromHtml_longLetterText :
    extractTextFromHtml longLetterText = longLetterText := by
  have hplain : plainText (List.replicate 50001 'a') = true :=
    plainText_replicate_letter 50001
  unfold longLetterText extractTextFromHtml
  generalize hX : List.replicate 50001 'a' = X at hplain ⊢
  exact congrArg String.mk (extractTextList_id_of_plain X hplain)

/-- Helper: after dropping leading JS whitespace, the head is not
whitespace. -/
theorem headNotSpace_dropWhile (l : List Char) :
    headNotSpace (l.dropWhile jsSpace) = true := by
  induction l with
  | nil => rfl
  | cons c rest ih =>
    by_cases h : jsSpace c = true
    · rw [List.dropWhile_cons_of_pos h]
      exact ih
    · rw [List.dropWhile_cons_of_neg (by simp [h])]
      simp only [headNotSpace, Bool.not_eq_true']
      exact Bool.not_eq_true _ ▸ (by simpa using h)

/-- Helper: `jsTrimList` output has no leading and no trailing JS
whitespace. -/
theorem jsTrimList_trimmed (l : List Char) :
    headNotSpace (jsTrimList l) = true ∧
    headNotSpace (jsTrimList l).reverse = true := by
  unfold jsTrimList
  constructor
  · rcases hB : (l.dropWhile jsSpace).reverse.dropWhile jsSpace
      with - | ⟨c, rest⟩
    · rfl
    · rcases hA : l.dropWhile jsSpace with - | ⟨a, as⟩
      · rw [hA] at hB
        simp at hB
      · have hna : jsSpace a = false := by
          have hh := headNotSpace_dropWhile l
          rw [hA] at hh
          simpa [headNotSpace] using hh
        have hsuf : (c :: rest) <:+ (l.dropWhile jsSpace).reverse := by
          rw [← hB]
          exact List.dropWhile_suffix _
        obtain ⟨u, hu⟩ := hsuf
        have hlast : (l.dropWhile jsSpace).reverse.getLast? =
            ((c :: rest) : List Char).getLast? := by
          rw [← hu]
          exact List.getLast?_append_of_ne_nil u (by simp)
        have hza : ((c :: rest) : List Char).getLast? = some a := by
          rw [← hlast, List.getLast?_reverse, hA]
          rfl
        rcases hrev : ((c :: rest) : List Char).reverse with - | ⟨d, ds⟩
        · rfl
        · have hh2 : ((c :: rest) : List Char).reverse.head? = some a := by
            rw [List.head?_reverse, hza]
          rw [hrev] at hh2
          injection hh2 with hda
          simp [headNotSpace, hda, hna]
  · rw [List.reverse_reverse]
    exact headNotSpace_dropWhile _

/-- Helper: `jsTrimList` is idempotent. -/
theorem jsTrimList_idem (l : List Char) :
    jsTrimList (jsTrimList l) = jsTrimList l :=
  jsTrimList_id _ (jsTrimList_trimmed l).1 (jsTrimList_trimmed l).2

/-- Helper: the extraction pipeline ends in a trim, so trimming its
output changes nothing. -/
theorem jsTrimList_extractTextList (l : List Char) :
    jsTrimList (extractTextList l) = extractTextList l := by
  simp only [extractTextList]
  exact jsTrimList_idem _

/-- Helper: `jsTrim` on a string built from a character list. -/
theorem jsTrim_mk (l : List Char) :
    jsTrim (String.mk l) = String.mk (jsTrimList l) := rfl

/-- Helper: the trimmed-output invariant of the web extractor —
`extractTextFromHtml` ends in `trim()`, so trimming its output changes
nothing. -/
theorem jsTrim_extractTextFromHtml (html : String) :
    jsTrim (extractTextFromHtml html) = extractTextFromHtml html := by
  unfold extractTextFromHtml
  rw [jsTrim_mk, jsTrimList_extractTextList]

/-- Helper: `urlAttempt` on a web content whose text is non-blank and
longer than 50000 characters truncates the text, runs the orchestrator on
the truncated text, and wraps its success in the 200 envelope. -/
theorem urlAttempt_ok_long (url uu hh : String) (n : Nat) (text : String)
    (run : String → Except String ExtractionResultM) (r : ExtractionResultM)
    (hne : jsTrim text ≠ "") (hlen : 50000 < text.length)
    (hrun : run (strTake text 50000) = .ok r) :
    urlAttempt url
        (.ok { url := uu, html := hh, text := text, contentLength := n })
        run =
      .ok (successResponse (Json.obj (resultFields r ++
        [("sourceUrl", Json.str url),
         ("extractedTextLength", Json.num (text.length : Rat))])) 200) := by
  simp only [urlAttempt]
  rw [if_neg hne, if_pos hlen, hrun]

/-- C5: on the direct-request path, a literal `recipeText` longer than
50000 characters is rejected with the 400 response before any
orchestrator call (the result does not depend on the collaborator at
all); a URL-sourced text longer than 50000 characters — necessarily the
output of `extractTextFromHtml`, which ends in a trim and so is never a
non-empty blank — is truncated to its first 50000 characters, the
orchestrator runs on the truncated text, and when it succeeds the request
succeeds with status 200. -/
theorem textLength_asymmetry :
    (∀ (recipeText : String)
        (run run' : String → Except String ExtractionResultM),
      50000 < recipeText.length →
      handleTextExtraction recipeText run =
        .ok (errorResponse "Recipe text too long (max 50000 characters)"
          400 []) ∧
      handleTextExtraction recipeText run =
        handleTextExtraction recipeText run') ∧
    (∀ (url html : String)
        (run : String → Except String ExtractionResultM)
        (r : ExtractionResultM),
      50000 < (extractTextFromHtml html).length →
      run (strTake (extractTextFromHtml html) 50000) = .ok r →
      handleUrlExtraction url true
          (fetchAndExtractWebpage url (.ok html)) run =
        .ok (successResponse (Json.obj (resultFields r ++
          [("sourceUrl", Json.str url),
           ("extractedTextLength",
            Json.num ((extractTextFromHtml html).length : Rat))])) 200)) := by
  constructor
  · intro t run run' hlen
    constructor
    · unfold handleTextExtraction
      rw [if_pos hlen]
    · unfold handleTextExtraction
      rw [if_pos hlen, if_pos hlen]
  · intro url html run r hlen hrun
    have hne : jsTrim (extractTextFromHtml html) ≠ "" := by
      rw [jsTrim_extractTextFromHtml]
      intro hcontra
      rw [hcontra] at hlen
      exact absurd hlen (by decide)
    have hfetch : fetchAndExtractWebpage url (.ok html) =
        .ok { url := url, html := html, text := extractTextFromHtml html,
              contentLength := (extractTextFromHtml html).length } := rfl
    unfold handleUrlExtraction
    rw [if_neg (by simp), hfetch,
      urlAttempt_ok_long url url html ((extractTextFromHtml html).length)
        (extractTextFromHtml html) run r hne hlen hrun]

/-- Witness for C5: a concrete 50001-character literal is rejected with
400; the same text arriving as a fetched webpage (on which the extractor
is the identity) is truncated and succeeds with 200. -/
theorem textLength_asymmetry_witness :
    handleTextExtraction longLetterText (fun _ => .ok sampleResult) =
      .ok (errorResponse "Recipe text too long (max 50000 characters)"
        400 []) ∧
    handleUrlExtraction "http://example.com" true
        (fetchAndExtractWebpage "http://example.com" (.ok longLetterText))
        (fun _ => .ok sampleResult) =
      .ok (successResponse (Json.obj (resultFields sampleResult ++
        [("sourceUrl", Json.str "http://example.com"),
         ("extractedTextLength",
          Json.num ((extractTextFromHtml longLetterText).length : Rat))]))
        200) :=
  ⟨(textLength_asymmetry.1 longLetterText (fun _ => .ok sampleResult)
      (fun _ => .ok sampleResult)
      (by rw [longLetterText_length]; norm_num)).1,
   textLength_asymmetry.2 "http://example.com" longLetterText
     (fun _ => .ok sampleResult) sampleResult
     (by rw [extractTextFromHtml_longLetterText, longLetterText_length]
         norm_num)
     (by rfl)⟩

end RecipeKeeper
